import Mathlib

/-!
# Verification of the Email-to-WhatsApp forwarder pipeline

Shallow embedding of the services of the forwarder:

* `src/services/gmailService.js` — sender parsing and IMAP search-criteria
  construction (`searchUnreadFromSenders`), email processing with the
  attachment size gate (`processEmail`), and the retention sweep
  (`cleanupAttachments`);
* `src/services/whatsappService.js` — destination-address normalization
  (`formatPhoneNumber`) and message forwarding (`forwardEmail`);
* `src/app.js` — the per-email orchestration loop (`processEmails`).

External effects (file writes, HTTP sends, file stats and deletes) are
modelled by explicit success oracles, and the observable behaviour is the
returned data together with a trace of the attempted operations.  String
helpers are embedded on `List Char` so that all definitions reduce in the
kernel; the JavaScript falsy semantics for `||` on strings is modelled
explicitly.
-/

namespace Forwarder

/-- JavaScript `v || d` for an optional string field: both `undefined`
(`none`) and the empty string are falsy and fall back to the default. -/
def orFalsy (v : Option String) (d : String) : String :=
  match v with
  | none => d
  | some s => if s = "" then d else s

/-- JavaScript `String.prototype.trim`: drop whitespace from both ends,
embedded structurally on the character list. -/
def trimChars (l : List Char) : List Char :=
  ((l.dropWhile Char.isWhitespace).reverse.dropWhile Char.isWhitespace).reverse

/-- JavaScript `s.trim()` on a `String`. -/
def jsTrim (s : String) : String :=
  String.mk (trimChars s.data)

/-- JavaScript `s.split(",")`: split the character list at every comma.
Splitting the empty string yields `[""]`, as in JavaScript. -/
def splitOnComma : List Char → List (List Char)
  | [] => [[]]
  | c :: rest =>
    let r := splitOnComma rest
    if c = ',' then [] :: r
    else
      match r with
      | [] => [[c]]
      | x :: xs => (c :: x) :: xs

/-! ## WhatsAppService.formatPhoneNumber (whatsappService.js lines 61-72) -/

/-- Country-code replacement step of `formatPhoneNumber`: the source line
`cleaned.startsWith("0") ? "62" + cleaned.substring(1) : cleaned`,
rendered on the character list (`take 1 = ['0']` is `startsWith "0"`,
and `'6' :: '2' :: drop 1` is `"62" + substring(1)`). -/
def formatDigits (cleaned : List Char) : List Char :=
  if cleaned.take 1 = ['0'] then '6' :: '2' :: cleaned.drop 1 else cleaned

/-- Embeds `WhatsAppService.formatPhoneNumber`: strip all non-digit
characters (`replace(/\D/g, "")`), replace a leading `0` by the country
code `62`, and append the chat suffix `@c.us`. -/
def formatPhoneNumber (phoneNumber : String) : String :=
  let cleaned := phoneNumber.data.filter Char.isDigit
  String.mk (formatDigits cleaned ++ "@c.us".data)

/-! ## GmailService.searchUnreadFromSenders (gmailService.js lines 113-150) -/

/-- Heterogeneous IMAP search-criteria terms: a criteria array holds both
bare strings (such as `"UNSEEN"` and `"OR"`) and two-element subarrays
(such as `["FROM", sender]`). -/
inductive SearchTerm where
  | atom (s : String) : SearchTerm
  | sub (ts : List String) : SearchTerm
deriving DecidableEq

/-- Embeds lines 116-119: `config.filter.senderEmail.split(",")
.map(s => s.trim()).filter(Boolean)` — `Boolean(s)` is false exactly on
the empty string. -/
def parseSenders (senderEmail : String) : List String :=
  (((splitOnComma senderEmail.data).map fun l => String.mk (trimChars l)).filter
    fun s => s != "")

/-- Embeds lines 126-135: start from `["UNSEEN"]`, map each sender to
`["FROM", sender]`, and push `"OR"` followed by all sender criteria when
there is more than one sender, otherwise push the single criterion. -/
def buildSearchCriteria (senders : List String) : List SearchTerm :=
  let senderCriteria := senders.map fun sender => SearchTerm.sub ["FROM", sender]
  if senderCriteria.length > 1 then
    [SearchTerm.atom "UNSEEN"] ++ [SearchTerm.atom "OR"] ++ senderCriteria
  else
    [SearchTerm.atom "UNSEEN"] ++ senderCriteria

/-- Result of one call to `searchUnreadFromSenders`: the value the promise
settles with, together with the list of search queries issued against the
mailbox during the call. -/
structure SearchOutcome where
  result : Except String (List Nat)
  queries : List (List SearchTerm)

/-- Embeds `GmailService.searchUnreadFromSenders` (lines 113-150).  The
IMAP `imap.search` callback is modelled by `searchFn`, which either
returns the matching UIDs or fails; an empty parsed sender list resolves
with `[]` and issues no query. -/
def searchUnreadFromSenders (senderEmail : String)
    (searchFn : List SearchTerm → Except String (List Nat)) : SearchOutcome :=
  let senders := parseSenders senderEmail
  if senders.length = 0 then
    { result := Except.ok [], queries := [] }
  else
    let searchCriteria := buildSearchCriteria senders
    { result := searchFn searchCriteria, queries := [searchCriteria] }

/-! ## GmailService.processEmail (gmailService.js lines 195-246) -/

/-- Configuration fields consumed by the embedded code paths:
`config.app.maxAttachmentSizeMB` (an integer, `parseInt` with default 25)
and `config.whatsapp.targetNumber`. -/
structure Config where
  maxAttachmentSizeMB : ℕ
  targetNumber : String

/-- Raw attachment payload as delivered by the mail parser. -/
structure RawAttachment where
  filename : String
  size : ℕ
  contentType : String
deriving DecidableEq

/-- Entry of `processedData.attachments`: a payload that passed the size
gate and was written to storage. -/
structure SavedAttachment where
  filename : String
  filepath : String
  contentType : String
  size : ℕ
deriving DecidableEq

/-- Entry of `processedData.skippedAttachments`. -/
structure SkippedAttachment where
  filename : String
  size : ℕ
  reason : String
deriving DecidableEq

/-- Parsed email as produced by `simpleParser`; headers that may be absent
are optional.  `date` is an epoch-milliseconds timestamp. -/
structure ParsedEmail where
  fromAddr : Option String
  toAddr : Option String
  subject : Option String
  date : Option Int
  text : Option String
  html : Option String
  attachments : List RawAttachment
deriving DecidableEq

/-- Structured result of `processEmail`. -/
structure ProcessedData where
  fromAddr : String
  toAddr : String
  subject : String
  date : Int
  text : String
  html : String
  attachments : List SavedAttachment
  skippedAttachments : List SkippedAttachment
deriving DecidableEq

/-- Storage path of a persisted attachment: `path.join(attachmentsDir,
Date.now() + "_" + attachment.filename)`, with the directory rendered
relative and the clock passed in as `now`. -/
def savedFilePath (now : Int) (filename : String) : String :=
  "attachments/" ++ toString now ++ "_" ++ filename

/-- Attachment loop of `processEmail` (lines 207-243).  For each payload:
if `attachment.size / (1024*1024)` exceeds `config.app.maxAttachmentSizeMB`
record a skip with reason `"Exceeds size limit"` and continue; otherwise
write the file — `writeOk j` tells whether the `fs.writeFile` for the
payload `j` positions further along the remaining list succeeds, so the
write outcome of the current payload is `writeOk 0` — and on success record
the saved attachment.  A failed write is caught, logged, and the loop
continues.  The third component collects the paths of successfully
written files. -/
def processAttachments (cfg : Config) (now : Int) :
    (ℕ → Bool) → List RawAttachment →
    List SavedAttachment × List SkippedAttachment × List String
  | _, [] => ([], [], [])
  | writeOk, attachment :: rest =>
    if (attachment.size : ℚ) / (1024 * 1024) > (cfg.maxAttachmentSizeMB : ℚ) then
      let (saved, skipped, written) :=
        processAttachments cfg now (fun j => writeOk (j + 1)) rest
      (saved,
       { filename := attachment.filename, size := attachment.size,
         reason := "Exceeds size limit" } :: skipped,
       written)
    else
      let filepath := savedFilePath now attachment.filename
      if writeOk 0 then
        let (saved, skipped, written) :=
          processAttachments cfg now (fun j => writeOk (j + 1)) rest
        ({ filename := attachment.filename, filepath := filepath,
           contentType := attachment.contentType, size := attachment.size } :: saved,
         skipped,
         filepath :: written)
      else
        processAttachments cfg now (fun j => writeOk (j + 1)) rest

/-- Embeds `GmailService.processEmail` (lines 195-246): header defaulting
with JavaScript `||` semantics, then the attachment loop.  `now` models
both the `new Date()` fallback for a missing date and the `Date.now()`
used in stored filenames; the second component is the list of file paths
written to storage during the call. -/
def processEmail (cfg : Config) (now : Int) (writeOk : ℕ → Bool)
    (email : ParsedEmail) : ProcessedData × List String :=
  let (saved, skipped, written) := processAttachments cfg now writeOk email.attachments
  ({ fromAddr := orFalsy email.fromAddr ""
   , toAddr := orFalsy email.toAddr ""
   , subject := orFalsy email.subject "(No Subject)"
   , date := email.date.getD now
   , text := orFalsy email.text ""
   , html := orFalsy email.html ""
   , attachments := saved
   , skippedAttachments := skipped }, written)

/-! ## GmailService.cleanupAttachments (gmailService.js lines 297-317) -/

/-- Directory entry with its `stats.mtimeMs` last-modified timestamp. -/
structure FileInfo where
  name : String
  mtimeMs : Int
deriving DecidableEq

/-- Observable outcome of one `cleanupAttachments` call: which files were
deleted, and whether the surrounding `catch` block ran (logging the
error).  The method returns normally in every case. -/
structure SweepResult where
  deleted : List String
  errorLogged : Bool
deriving DecidableEq

/-- Per-file loop of `cleanupAttachments` (lines 303-312): for each file
`fs.stat` it (`statOk` tells whether the stat succeeds), delete it when
`now - stats.mtimeMs > cutoffTime` (`unlinkOk` tells whether the delete
succeeds).  The loop body sits inside the single `try` that wraps the
whole sweep, so the first failing stat or delete transfers control to the
`catch`: the second component reports that transfer, and no further file
is examined. -/
def sweepFiles (now cutoffTime : Int) (statOk unlinkOk : String → Bool) :
    List FileInfo → List String × Bool
  | [] => ([], false)
  | f :: rest =>
    if statOk f.name then
      if now - f.mtimeMs > cutoffTime then
        if unlinkOk f.name then
          let (deleted, aborted) := sweepFiles now cutoffTime statOk unlinkOk rest
          (f.name :: deleted, aborted)
        else ([], true)
      else sweepFiles now cutoffTime statOk unlinkOk rest
    else ([], true)

/-- Embeds `GmailService.cleanupAttachments` (lines 297-317).  `dir`
models `fs.readdir` (which may itself fail), `cutoffTime` is
`daysToKeep * 24 * 60 * 60 * 1000`.  All errors are caught and logged;
the method always returns normally, which the total return type records. -/
def cleanupAttachments (now daysToKeep : Int)
    (dir : Except String (List FileInfo)) (statOk unlinkOk : String → Bool) :
    SweepResult :=
  match dir with
  | Except.error _ => { deleted := [], errorLogged := true }
  | Except.ok files =>
    let cutoffTime := daysToKeep * 24 * 60 * 60 * 1000
    let (deleted, aborted) := sweepFiles now cutoffTime statOk unlinkOk files
    { deleted := deleted, errorLogged := aborted }

/-! ## WhatsAppService.forwardEmail (whatsappService.js lines 168-242) -/

/-- Text-rendering helpers used while assembling the outbound message.
They are passed in as parameters because their outputs are
environment-dependent (locale-dependent `Date.toLocaleString`,
regex-based `stripHtml` and `formatImagePlaceholders`, floating-point
`formatFileSize`) and no claim constrains the rendered text itself. -/
structure TextEnv where
  toLocaleString : Int → String
  stripHtml : String → String
  formatImagePlaceholders : String → String
  formatFileSize : ℕ → String

/-- Outbound operation attempted against the Green API, or the
rate-limiting pause between sends: a text-message post
(`sendTextMessage`, with the chat id already normalized), a file upload
(`sendFile`), or an `await delay(ms)`. -/
inductive SendEvent where
  | text (chatId message : String) : SendEvent
  | file (chatId filepath caption filename : String) : SendEvent
  | wait (ms : ℕ) : SendEvent
deriving DecidableEq

/-- Embeds the message assembly of `forwardEmail` (lines 170-199):
header, separator blocks, sender and date lines, subject, body (plain
text preferred, HTML stripped as fallback, empty otherwise), and the
attachment-count line that is appended only when there is at least one
sent or skipped attachment. -/
def buildMessage (env : TextEnv) (emailData : ProcessedData) : String :=
  let separator := "───"
  let header := "⌬  >>  𝗘𝗠𝗔𝗜𝗟 𝗙𝗢𝗥𝗪𝗔𝗥𝗗𝗘𝗥"
  let infoHeader := "*ℹ️ - EMAIL INFORMATION*"
  let fromLine := "*From:* " ++ emailData.fromAddr
  let dateLine := "*Date:* " ++ env.toLocaleString emailData.date
  let contentHeader := "*📝 - EMAIL CONTENT*"
  let subjectLine := "*Subject:* " ++ emailData.subject
  let rawBodyText :=
    if emailData.text ≠ "" then emailData.text
    else if emailData.html ≠ "" then env.stripHtml emailData.html
    else ""
  let body := env.formatImagePlaceholders rawBodyText
  let attachmentText :=
    if emailData.attachments.length + emailData.skippedAttachments.length > 0 then
      "*📎 Attachments (" ++ toString emailData.attachments.length ++ " sent, "
        ++ toString emailData.skippedAttachments.length ++ " skipped)*"
    else ""
  let message := header ++ "\n\n" ++ separator ++ "\n\n" ++ infoHeader ++ "\n\n"
    ++ fromLine ++ "\n" ++ dateLine ++ "\n\n" ++ separator ++ "\n\n"
    ++ contentHeader ++ "\n\n" ++ subjectLine ++ "\n\n" ++ body
  if attachmentText ≠ "" then
    message ++ "\n" ++ separator ++ "\n\n" ++ attachmentText
  else message

/-- Caption accompanying one file send (line 208). -/
def attachmentCaption (env : TextEnv) (attachment : SavedAttachment) : String :=
  "📄 " ++ attachment.filename ++ "\n💾 Size: " ++ env.formatFileSize attachment.size

/-- Skipped-attachments summary (lines 229-233), trimmed as in the source. -/
def buildSkippedMessage (env : TextEnv) (skipped : List SkippedAttachment) : String :=
  jsTrim (skipped.foldl
    (fun acc s =>
      acc ++ "- " ++ s.filename ++ " (" ++ env.formatFileSize s.size ++ ") - "
        ++ s.reason ++ "\n")
    "*⚠️ Skipped Attachments:*\n")

/-- Attachment loop of `forwardEmail` (lines 206-225).  `ok n` is the
outcome of the `n`-th send attempt of the call (HTTP post succeeds or
throws).  A failed `sendFile` is caught and a failure-notice text message
is sent from inside the `catch`; if that notice itself throws, the
exception escapes the loop to the outer `catch` (third component
`false`).  Returns the extended trace, the next attempt index, and
whether the loop completed. -/
def sendAttachmentsLoop (cfg : Config) (env : TextEnv) (ok : ℕ → Bool) :
    List SavedAttachment → List SendEvent → ℕ → List SendEvent × ℕ × Bool
  | [], trace, n => (trace, n, true)
  | attachment :: rest, trace, n =>
    let trace1 := trace ++ [SendEvent.file (formatPhoneNumber cfg.targetNumber)
      attachment.filepath (attachmentCaption env attachment) attachment.filename]
    if ok n then
      sendAttachmentsLoop cfg env ok rest (trace1 ++ [SendEvent.wait 2000]) (n + 1)
    else
      let errorMessage := "❌ Failed to send attachment: " ++ attachment.filename
      let trace2 := trace1 ++ [SendEvent.text (formatPhoneNumber cfg.targetNumber)
        errorMessage]
      if ok (n + 1) then
        sendAttachmentsLoop cfg env ok rest trace2 (n + 2)
      else
        (trace2, n + 2, false)

/-- Outcome of one `forwardEmail` call: whether the promise resolved
(`resolved = false` means the outer `catch` re-threw the error to the
caller), the trace of attempted operations, and the number of send
attempts consumed from the oracle. -/
structure ForwardResult where
  resolved : Bool
  trace : List SendEvent
  attempts : ℕ

/-- Embeds `WhatsAppService.forwardEmail` (lines 168-242): send the
assembled text body first; only if that succeeds run the attachment loop;
then, when any attachments were skipped, send the skip summary followed
by a delay.  Any uncaught error reaches the outer `catch`, is logged and
re-thrown (`resolved = false`). -/
def forwardEmail (cfg : Config) (env : TextEnv) (ok : ℕ → Bool)
    (emailData : ProcessedData) : ForwardResult :=
  let message := buildMessage env emailData
  let trace0 := [SendEvent.text (formatPhoneNumber cfg.targetNumber) message]
  if ok 0 then
    match sendAttachmentsLoop cfg env ok emailData.attachments trace0 1 with
    | (trace1, n1, true) =>
      if emailData.skippedAttachments.length > 0 then
        let trace2 := trace1 ++ [SendEvent.text (formatPhoneNumber cfg.targetNumber)
          (buildSkippedMessage env emailData.skippedAttachments)]
        if ok n1 then
          { resolved := true, trace := trace2 ++ [SendEvent.wait 1000], attempts := n1 + 1 }
        else
          { resolved := false, trace := trace2, attempts := n1 + 1 }
      else
        { resolved := true, trace := trace1, attempts := n1 }
    | (trace1, n1, false) =>
      { resolved := false, trace := trace1, attempts := n1 }
  else
    { resolved := false, trace := trace0, attempts := 1 }

/-! ## EmailToWhatsAppForwarder.processEmails (app.js lines 58-132) -/

/-- Action observable from the orchestration loop: an outbound send
attempt, an `fs.unlink` of a forwarded attachment copy, or the
`logger.error` recorded when forwarding one email failed. -/
inductive AppEvent where
  | send (e : SendEvent) : AppEvent
  | unlink (filepath : String) : AppEvent
  | logForwardError (subject : String) : AppEvent
deriving DecidableEq

/-- Per-email body of the `for` loop in `processEmails` (lines 71-110):
forward the email; on success delete each persisted attachment copy
(unlink failures are only warned about and do not change the trace of
attempts); on failure log it and attempt one error-notification text
message, whose own failure is caught and only logged.  `errText` stands
for the `message` of the thrown error.  The send-attempt oracle is threaded
through by offsetting with the attempts already consumed. -/
def processOneEmail (cfg : Config) (env : TextEnv) (ok : ℕ → Bool)
    (errText : String) (email : ProcessedData) (n : ℕ) : List AppEvent × ℕ :=
  let r := forwardEmail cfg env (fun i => ok (n + i)) email
  if r.resolved then
    (r.trace.map AppEvent.send
      ++ email.attachments.map fun a => AppEvent.unlink a.filepath,
     n + r.attempts)
  else
    let errorMessage := "❌ Failed to forward email:\n*Subject:* " ++ email.subject
      ++ "\n*Error:* " ++ errText
    (r.trace.map AppEvent.send
      ++ [AppEvent.logForwardError email.subject,
          AppEvent.send (SendEvent.text (formatPhoneNumber cfg.targetNumber) errorMessage)],
     n + r.attempts + 1)

/-- Embeds the per-email loop of `EmailToWhatsAppForwarder.processEmails`
over the list of processed emails, in order, threading the send-attempt
oracle. -/
def processEmails (cfg : Config) (env : TextEnv) (ok : ℕ → Bool)
    (errText : String) : List ProcessedData → ℕ → List AppEvent × ℕ
  | [], n => ([], n)
  | email :: rest, n =>
    let (trace1, n1) := processOneEmail cfg env ok errText email n
    let (trace2, n2) := processEmails cfg env ok errText rest n1
    (trace1 ++ trace2, n2)

/-! ## Helper lemmas -/

/-- Characters surviving the digit filter are digits. -/
theorem mem_filter_isDigit {l : List Char} {c : Char}
    (h : c ∈ l.filter Char.isDigit) : c.isDigit = true :=
  (List.mem_filter.mp h).2

/-- Country-code replacement preserves all-digit character lists. -/
theorem formatDigits_all_digits {l : List Char}
    (h : ∀ c ∈ l, c.isDigit = true) :
    ∀ c ∈ formatDigits l, c.isDigit = true := by
  intro c hc
  unfold formatDigits at hc
  split at hc
  · rcases List.mem_cons.mp hc with rfl | hc
    · decide
    · rcases List.mem_cons.mp hc with rfl | hc
      · decide
      · exact h c (List.mem_of_mem_drop hc)
  · exact h c hc

/-- Country-code replacement is idempotent: its output never starts with
`'0'`. -/
theorem formatDigits_idem (l : List Char) :
    formatDigits (formatDigits l) = formatDigits l := by
  by_cases h : l.take 1 = ['0']
  · simp [formatDigits, h]
  · simp [formatDigits, h]

/-- C4: destination-address normalization is total (it is a function on
all of `String`) and idempotent on every digit-bearing input, and maps the
two reference inputs to `"6281234567890@c.us"`. -/
theorem formatPhoneNumber_idem (x : String)
    (_hx : ∃ c ∈ x.data, c.isDigit = true) :
    formatPhoneNumber (formatPhoneNumber x) = formatPhoneNumber x ∧
    formatPhoneNumber "081234567890" = "6281234567890@c.us" ∧
    formatPhoneNumber "+62 812-3456-7890" = "6281234567890@c.us" := by
  refine ⟨?_, by decide, by decide⟩
  unfold formatPhoneNumber
  show String.mk (formatDigits ((formatDigits (x.data.filter Char.isDigit)
      ++ "@c.us".data).filter Char.isDigit) ++ "@c.us".data) = _
  rw [List.filter_append]
  have h1 : (formatDigits (x.data.filter Char.isDigit)).filter Char.isDigit
      = formatDigits (x.data.filter Char.isDigit) :=
    List.filter_eq_self.mpr (formatDigits_all_digits fun _ hc => mem_filter_isDigit hc)
  have h2 : "@c.us".data.filter Char.isDigit = [] := by decide
  rw [h1, h2, List.append_nil, formatDigits_idem]

/-- Witness for C4 at the concrete input `"081234567890"`. -/
theorem formatPhoneNumber_idem_witness :
    (∃ c ∈ "081234567890".data, c.isDigit = true) ∧
    (formatPhoneNumber (formatPhoneNumber "081234567890")
        = formatPhoneNumber "081234567890" ∧
      formatPhoneNumber "081234567890" = "6281234567890@c.us" ∧
      formatPhoneNumber "+62 812-3456-7890" = "6281234567890@c.us") :=
  ⟨by decide, formatPhoneNumber_idem "081234567890" (by decide)⟩

/-- C2: for a single sender the built criteria are
`["UNSEEN", ["FROM", s]]`, and for two or more senders they are
`["UNSEEN", "OR", ["FROM", s1], ["FROM", s2], ...]` preserving input
order. -/
theorem buildSearchCriteria_shape :
    (∀ s : String, buildSearchCriteria [s]
        = [SearchTerm.atom "UNSEEN", SearchTerm.sub ["FROM", s]])
    ∧ ∀ (s1 s2 : String) (rest : List String),
        buildSearchCriteria (s1 :: s2 :: rest)
          = [SearchTerm.atom "UNSEEN", SearchTerm.atom "OR"]
            ++ (s1 :: s2 :: rest).map fun s => SearchTerm.sub ["FROM", s] := by
  constructor
  · intro s
    rfl
  · intro s1 s2 rest
    have h : ((s1 :: s2 :: rest).map fun sender =>
        SearchTerm.sub ["FROM", sender]).length > 1 := by
      simp
    simp only [buildSearchCriteria, if_pos h]
    rfl

/-- C3: when the configured sender filter parses to an empty sender list,
`searchUnreadFromSenders` resolves with the empty UID sequence (not an
error) and issues no search query against the mailbox. -/
theorem searchUnreadFromSenders_empty (senderEmail : String)
    (searchFn : List SearchTerm → Except String (List Nat))
    (h : parseSenders senderEmail = []) :
    searchUnreadFromSenders senderEmail searchFn
      = { result := Except.ok [], queries := [] } := by
  simp [searchUnreadFromSenders, h]

/-- Witness for C3: a filter of commas and blanks parses to no senders and
triggers the early-out even when every issued query would fail. -/
theorem searchUnreadFromSenders_empty_witness :
    searchUnreadFromSenders " , ," (fun _ => Except.error "search issued")
      = { result := Except.ok [], queries := [] } :=
  searchUnreadFromSenders_empty " , ," (fun _ => Except.error "search issued")
    (by decide)

/-- Characterization of the attachment loop when every storage write
succeeds: saved attachments are exactly the payloads with
`size / 1048576 ≤ maxAttachmentSizeMB` in order, skipped attachments are
exactly the oversize payloads in order with reason
`"Exceeds size limit"`, and the written files are exactly the saved
ones. -/
theorem processAttachments_all_ok (cfg : Config) (now : Int)
    (atts : List RawAttachment) :
    processAttachments cfg now (fun _ => true) atts
      = ((atts.filter fun a =>
            decide ((a.size : ℚ) / 1048576 ≤ (cfg.maxAttachmentSizeMB : ℚ))).map
            (fun a => ({ filename := a.filename,
                         filepath := savedFilePath now a.filename,
                         contentType := a.contentType,
                         size := a.size } : SavedAttachment)),
         (atts.filter fun a =>
            decide ((cfg.maxAttachmentSizeMB : ℚ) < (a.size : ℚ) / 1048576)).map
            (fun a => ({ filename := a.filename, size := a.size,
                         reason := "Exceeds size limit" } : SkippedAttachment)),
         (atts.filter fun a =>
            decide ((a.size : ℚ) / 1048576 ≤ (cfg.maxAttachmentSizeMB : ℚ))).map
            fun a => savedFilePath now a.filename) := by
  induction atts with
  | nil => rfl
  | cons a rest ih =>
    have h1024 : ((1024 : ℚ) * 1024) = 1048576 := by norm_num
    by_cases h : (a.size : ℚ) / (1024 * 1024) > (cfg.maxAttachmentSizeMB : ℚ)
    · have hle : ¬ ((a.size : ℚ) / 1048576 ≤ (cfg.maxAttachmentSizeMB : ℚ)) := by
        rw [← h1024]
        exact not_le.mpr h
      have hlt : (cfg.maxAttachmentSizeMB : ℚ) < (a.size : ℚ) / 1048576 := by
        rw [← h1024]
        exact h
      simp only [processAttachments, if_pos h, ih, List.filter_cons]
      simp [hle, hlt]
    · have hle : (a.size : ℚ) / 1048576 ≤ (cfg.maxAttachmentSizeMB : ℚ) := by
        rw [← h1024]
        exact not_lt.mp h
      have hlt : ¬ ((cfg.maxAttachmentSizeMB : ℚ) < (a.size : ℚ) / 1048576) := by
        rw [← h1024]
        exact h
      simp only [processAttachments, if_neg h, ih, List.filter_cons]
      simp [hle, hlt]

/-- C1 (amended): with storage writes succeeding, a payload of size `S`
under ceiling `C` MB is written and listed in `attachments` iff
`S / 1048576 ≤ C`; otherwise it is not written and is listed in
`skippedAttachments` with reason `"Exceeds size limit"`. -/
theorem processEmail_size_gate (cfg : Config) (now : Int) (email : ParsedEmail) :
    (processEmail cfg now (fun _ => true) email).1.attachments
        = (email.attachments.filter fun a =>
            decide ((a.size : ℚ) / 1048576 ≤ (cfg.maxAttachmentSizeMB : ℚ))).map
            (fun a => ({ filename := a.filename,
                         filepath := savedFilePath now a.filename,
                         contentType := a.contentType,
                         size := a.size } : SavedAttachment))
    ∧ (processEmail cfg now (fun _ => true) email).1.skippedAttachments
        = (email.attachments.filter fun a =>
            decide ((cfg.maxAttachmentSizeMB : ℚ) < (a.size : ℚ) / 1048576)).map
            (fun a => ({ filename := a.filename, size := a.size,
                         reason := "Exceeds size limit" } : SkippedAttachment))
    ∧ (processEmail cfg now (fun _ => true) email).2
        = (email.attachments.filter fun a =>
            decide ((a.size : ℚ) / 1048576 ≤ (cfg.maxAttachmentSizeMB : ℚ))).map
            fun a => savedFilePath now a.filename := by
  have h := processAttachments_all_ok cfg now email.attachments
  refine ⟨?_, ?_, ?_⟩ <;> simp [processEmail, h]

/-- Concrete oversize input used to settle the reason string of C1. -/
def oversizeEmailExample : ParsedEmail :=
  { fromAddr := none, toAddr := none, subject := none, date := none,
    text := none, html := none,
    attachments := [{ filename := "big.bin", size := 27262976,
                      contentType := "application/octet-stream" }] }

/-- Counterexample to C1 as stated: a 26 MB payload under a 25 MB ceiling
is skipped with reason `"Exceeds size limit"`, so no entry with the
claimed reason `"exceeds size limit"` is ever appended. -/
theorem processEmail_reason_counterexample :
    (processEmail { maxAttachmentSizeMB := 25, targetNumber := "" } 0
        (fun _ => true) oversizeEmailExample).1.skippedAttachments
      = [{ filename := "big.bin", size := 27262976,
           reason := "Exceeds size limit" }]
    ∧ ({ filename := "big.bin", size := 27262976,
         reason := "exceeds size limit" } : SkippedAttachment)
        ∉ (processEmail { maxAttachmentSizeMB := 25, targetNumber := "" } 0
            (fun _ => true) oversizeEmailExample).1.skippedAttachments := by
  have h := processAttachments_all_ok
    { maxAttachmentSizeMB := 25, targetNumber := "" } 0
    oversizeEmailExample.attachments
  have hle : ¬ ((27262976 : ℚ) / 1048576 ≤ (25 : ℚ)) := by norm_num
  have hlt : (25 : ℚ) < (27262976 : ℚ) / 1048576 := by norm_num
  simp [oversizeEmailExample, hle, hlt] at h
  constructor <;> simp [processEmail, oversizeEmailExample, h]

/-- JavaScript `s || ""` leaves every present string unchanged. -/
theorem orFalsy_some_default_empty (s : String) : orFalsy (some s) "" = s := by
  by_cases h : s = "" <;> simp [orFalsy, h]

/-- C9: a missing sender or recipient header defaults to `""`, a missing
subject to `"(No Subject)"`, and a missing date to the processing time
`now`; present sender, recipient, date, plain-text body and HTML body are
carried through unchanged. -/
theorem processEmail_defaults (cfg : Config) (now : Int) (writeOk : ℕ → Bool)
    (email : ParsedEmail) :
    ((email.fromAddr = none → (processEmail cfg now writeOk email).1.fromAddr = "")
      ∧ (email.toAddr = none → (processEmail cfg now writeOk email).1.toAddr = "")
      ∧ (email.subject = none →
          (processEmail cfg now writeOk email).1.subject = "(No Subject)")
      ∧ (email.date = none → (processEmail cfg now writeOk email).1.date = now))
    ∧ ((∀ s, email.fromAddr = some s →
          (processEmail cfg now writeOk email).1.fromAddr = s)
      ∧ (∀ s, email.toAddr = some s →
          (processEmail cfg now writeOk email).1.toAddr = s)
      ∧ (∀ d, email.date = some d → (processEmail cfg now writeOk email).1.date = d)
      ∧ (∀ t, email.text = some t → (processEmail cfg now writeOk email).1.text = t)
      ∧ (∀ s, email.html = some s →
          (processEmail cfg now writeOk email).1.html = s)) := by
  rcases hps : processAttachments cfg now writeOk email.attachments
    with ⟨saved, skipped, written⟩
  have hfst : (processEmail cfg now writeOk email).1 =
      { fromAddr := orFalsy email.fromAddr ""
      , toAddr := orFalsy email.toAddr ""
      , subject := orFalsy email.subject "(No Subject)"
      , date := email.date.getD now
      , text := orFalsy email.text ""
      , html := orFalsy email.html ""
      , attachments := saved
      , skippedAttachments := skipped } := by
    simp [processEmail, hps]
  constructor
  · refine ⟨fun h => ?_, fun h => ?_, fun h => ?_, fun h => ?_⟩ <;>
      simp [hfst, h, orFalsy]
  · refine ⟨fun s h => ?_, fun s h => ?_, fun d h => ?_, fun t h => ?_,
      fun s h => ?_⟩ <;> simp [hfst, h, orFalsy_some_default_empty]

/-- Witness for C9: all-absent headers take the documented defaults, and
present bodies pass through. -/
theorem processEmail_defaults_witness :
    ((processEmail { maxAttachmentSizeMB := 25, targetNumber := "" } 7
        (fun _ => true)
        { fromAddr := none, toAddr := none, subject := none, date := none,
          text := none, html := none, attachments := [] }).1.fromAddr = ""
    ∧ (processEmail { maxAttachmentSizeMB := 25, targetNumber := "" } 7
        (fun _ => true)
        { fromAddr := none, toAddr := none, subject := none, date := none,
          text := none, html := none, attachments := [] }).1.subject
        = "(No Subject)"
    ∧ (processEmail { maxAttachmentSizeMB := 25, targetNumber := "" } 7
        (fun _ => true)
        { fromAddr := none, toAddr := none, subject := none, date := none,
          text := none, html := none, attachments := [] }).1.date = 7)
    ∧ (processEmail { maxAttachmentSizeMB := 25, targetNumber := "" } 7
        (fun _ => true)
        { fromAddr := some "alice@example.com", toAddr := some "bob@example.com",
          subject := some "Hi", date := some 3, text := some "body",
          html := some "<p>body</p>", attachments := [] }).1.text = "body" :=
  ⟨⟨(processEmail_defaults _ 7 (fun _ => true) _).1.1 rfl,
    (processEmail_defaults _ 7 (fun _ => true) _).1.2.2.1 rfl,
    (processEmail_defaults _ 7 (fun _ => true) _).1.2.2.2 rfl⟩,
   (processEmail_defaults _ 7 (fun _ => true) _).2.2.2.2.1 "body" rfl⟩

/-- Attachment-loop form of the write-failure drop: when the payload at
position `pre.length` passes the size gate but its write fails, the loop
result is exactly that of running the loop without that payload (with the
oracle re-indexed past it). -/
theorem processAttachments_skip (cfg : Config) (now : Int)
    (pre post : List RawAttachment) (a : RawAttachment)
    (hsize : ¬ ((a.size : ℚ) / (1024 * 1024) > (cfg.maxAttachmentSizeMB : ℚ)))
    (writeOk : ℕ → Bool) (hfail : writeOk pre.length = false) :
    processAttachments cfg now writeOk (pre ++ a :: post)
      = processAttachments cfg now
          (fun j => if j < pre.length then writeOk j else writeOk (j + 1))
          (pre ++ post) := by
  induction pre generalizing writeOk with
  | nil =>
    have hfail0 : writeOk 0 = false := by simpa using hfail
    have hok : (fun j => if j < ([] : List RawAttachment).length then writeOk j
        else writeOk (j + 1)) = fun j => writeOk (j + 1) :=
      funext fun j => by simp
    simp only [List.nil_append]
    rw [hok]
    simp only [processAttachments, if_neg hsize, hfail0]
    simp
  | cons p pre' ih =>
    have hfail' : (fun j => writeOk (j + 1)) pre'.length = false := by
      simpa using hfail
    have hrec := ih (fun j => writeOk (j + 1)) hfail'
    have hok0 : (fun j => if j < (p :: pre').length then writeOk j
        else writeOk (j + 1)) 0 = writeOk 0 := by simp
    have hoktail : (fun j => (fun j => if j < (p :: pre').length then writeOk j
          else writeOk (j + 1)) (j + 1))
        = fun j => if j < pre'.length then writeOk (j + 1) else writeOk (j + 1 + 1) :=
      funext fun j => by simp [Nat.add_lt_add_iff_right]
    simp only [List.cons_append, processAttachments, List.append_eq, hrec, hok0,
      hoktail]

/-- C10: when a payload passes the size gate but its storage write fails,
`processEmail` catches the error and continues with the next payload, and
the failed payload appears in neither `attachments` nor
`skippedAttachments` nor the written files: the result is exactly that of
processing the email without that payload. -/
theorem processEmail_write_failure_drops (cfg : Config) (now : Int)
    (fromA toA subj : Option String) (dt : Option Int) (te hml : Option String)
    (pre post : List RawAttachment) (a : RawAttachment) (writeOk : ℕ → Bool)
    (hsize : ¬ ((a.size : ℚ) / (1024 * 1024) > (cfg.maxAttachmentSizeMB : ℚ)))
    (hfail : writeOk pre.length = false) :
    processEmail cfg now writeOk
        { fromAddr := fromA, toAddr := toA, subject := subj, date := dt,
          text := te, html := hml, attachments := pre ++ a :: post }
      = processEmail cfg now
          (fun j => if j < pre.length then writeOk j else writeOk (j + 1))
          { fromAddr := fromA, toAddr := toA, subject := subj, date := dt,
            text := te, html := hml, attachments := pre ++ post } := by
  have h := processAttachments_skip cfg now pre post a hsize writeOk hfail
  simp [processEmail, h]

/-- Witness for C10: a 1000-byte payload under a 25 MB ceiling whose
write fails leaves the processed email exactly as if the payload were
absent. -/
theorem processEmail_write_failure_drops_witness :
    (¬ (((1000 : ℚ)) / (1024 * 1024) > (25 : ℚ)))
    ∧ ((fun _ : ℕ => false) 0 = false)
    ∧ processEmail { maxAttachmentSizeMB := 25, targetNumber := "" } 0
        (fun _ => false)
        { fromAddr := none, toAddr := none, subject := none, date := none,
          text := none, html := none,
          attachments := [{ filename := "doc.txt", size := 1000,
                            contentType := "text/plain" }] }
      = processEmail { maxAttachmentSizeMB := 25, targetNumber := "" } 0
          (fun _ => false)
          { fromAddr := none, toAddr := none, subject := none, date := none,
            text := none, html := none, attachments := [] } := by
  refine ⟨by norm_num, rfl, ?_⟩
  have h := processEmail_write_failure_drops
    { maxAttachmentSizeMB := 25, targetNumber := "" } 0
    none none none none none none [] []
    { filename := "doc.txt", size := 1000, contentType := "text/plain" }
    (fun _ => false) (by norm_num) rfl
  simpa using h

/-- Error-free retention sweep: with every stat and delete succeeding,
`sweepFiles` deletes exactly the files strictly older than the cutoff, in
directory order, and the catch block never runs. -/
theorem sweepFiles_all_ok (now cutoff : Int) (files : List FileInfo) :
    sweepFiles now cutoff (fun _ => true) (fun _ => true) files
      = ((files.filter fun f => decide (now - f.mtimeMs > cutoff)).map
          FileInfo.name, false) := by
  induction files with
  | nil => rfl
  | cons f rest ih =>
    by_cases h : now - f.mtimeMs > cutoff
    · simp [sweepFiles, h, ih, List.filter_cons]
    · simp [sweepFiles, h, ih, List.filter_cons]

/-- C5: in an error-free sweep a file is deleted iff
`now - mtimeMs > daysToKeep * 86400000` milliseconds — strict inequality,
so a file exactly at the boundary is kept. -/
theorem cleanupAttachments_deletes_iff (now daysToKeep : Int)
    (files : List FileInfo) :
    cleanupAttachments now daysToKeep (Except.ok files)
        (fun _ => true) (fun _ => true)
      = { deleted := (files.filter fun f =>
            decide (now - f.mtimeMs > daysToKeep * 86400000)).map FileInfo.name,
          errorLogged := false } := by
  have hcut : daysToKeep * 24 * 60 * 60 * 1000 = daysToKeep * 86400000 := by ring
  simp [cleanupAttachments, hcut, sweepFiles_all_ok]

/-- Counterexample to C6 as stated: the single `try`/`catch` wraps the
whole sweep loop, so when the stat of file `"a"` fails the sweep stops —
file `"b"`, which is strictly older than the cutoff and would be deleted
by a continuing sweep, is left untouched.  (`now` is 10 days, cutoff 7
days, both files have modification time 0.) -/
theorem cleanupAttachments_abort_counterexample :
    (cleanupAttachments 864000000 7
        (Except.ok [{ name := "a", mtimeMs := 0 }, { name := "b", mtimeMs := 0 }])
        (fun n => n != "a") (fun _ => true)).deleted = []
    ∧ (cleanupAttachments 864000000 7
        (Except.ok [{ name := "a", mtimeMs := 0 }, { name := "b", mtimeMs := 0 }])
        (fun n => n != "a") (fun _ => true)).errorLogged = true
    ∧ ((864000000 : Int) - 0 > 7 * 86400000) := by
  refine ⟨rfl, rfl, by norm_num⟩

/-- Aborting retention sweep: the first failing stat — or failing delete
of an old file — transfers control to the catch block, keeping only the
deletions already performed on the preceding files. -/
theorem sweepFiles_abort (now cutoff : Int) (pre post : List FileInfo)
    (f : FileInfo) (statOk unlinkOk : String → Bool)
    (hpre : ∀ g ∈ pre, statOk g.name = true ∧ unlinkOk g.name = true)
    (hf : statOk f.name = false
      ∨ (statOk f.name = true ∧ unlinkOk f.name = false
          ∧ now - f.mtimeMs > cutoff)) :
    sweepFiles now cutoff statOk unlinkOk (pre ++ f :: post)
      = ((pre.filter fun g => decide (now - g.mtimeMs > cutoff)).map
          FileInfo.name, true) := by
  induction pre with
  | nil =>
    rcases hf with hf | ⟨hf1, hf2, hf3⟩
    · simp [sweepFiles, hf]
    · simp [sweepFiles, hf1, hf2, hf3]
  | cons g pre' ih =>
    have hg := hpre g (List.mem_cons_self g pre')
    have hpre' : ∀ x ∈ pre', statOk x.name = true ∧ unlinkOk x.name = true :=
      fun x hx => hpre x (List.mem_cons_of_mem g hx)
    by_cases hold : now - g.mtimeMs > cutoff
    · simp [sweepFiles, hg.1, hg.2, hold, ih hpre', List.filter_cons]
    · simp [sweepFiles, hg.1, hold, ih hpre', List.filter_cons]

/-- C6 (amended): a per-file I/O error (stat or delete) during the
retention sweep is logged and ends the sweep early — files after the
failing one are not deleted — and is never propagated to the caller: the
method still returns an ordinary `SweepResult`. -/
theorem cleanupAttachments_error_ends_sweep (now daysToKeep : Int)
    (pre post : List FileInfo) (f : FileInfo) (statOk unlinkOk : String → Bool)
    (hpre : ∀ g ∈ pre, statOk g.name = true ∧ unlinkOk g.name = true) :
    (statOk f.name = false →
      cleanupAttachments now daysToKeep (Except.ok (pre ++ f :: post))
          statOk unlinkOk
        = { deleted := (pre.filter fun g =>
              decide (now - g.mtimeMs > daysToKeep * 86400000)).map FileInfo.name,
            errorLogged := true })
    ∧ (statOk f.name = true → unlinkOk f.name = false →
        now - f.mtimeMs > daysToKeep * 86400000 →
        cleanupAttachments now daysToKeep (Except.ok (pre ++ f :: post))
            statOk unlinkOk
          = { deleted := (pre.filter fun g =>
                decide (now - g.mtimeMs > daysToKeep * 86400000)).map FileInfo.name,
              errorLogged := true }) := by
  have hcut : daysToKeep * 24 * 60 * 60 * 1000 = daysToKeep * 86400000 := by ring
  constructor
  · intro h
    have hs := sweepFiles_abort now (daysToKeep * 86400000) pre post f statOk
      unlinkOk hpre (Or.inl h)
    simp [cleanupAttachments, hcut, hs]
  · intro h1 h2 h3
    have hs := sweepFiles_abort now (daysToKeep * 86400000) pre post f statOk
      unlinkOk hpre (Or.inr ⟨h1, h2, h3⟩)
    simp [cleanupAttachments, hcut, hs]

/-- Witness for the amended C6: with one already-swept old file before
the failing one, both the stat-failure case and the delete-failure case
stop the sweep right after the deletion of the first file. -/
theorem cleanupAttachments_error_ends_sweep_witness :
    cleanupAttachments 864000000 7
        (Except.ok [{ name := "p", mtimeMs := 0 }, { name := "q", mtimeMs := 0 },
                    { name := "r", mtimeMs := 0 }])
        (fun n => n != "q") (fun _ => true)
      = { deleted := ["p"], errorLogged := true }
    ∧ cleanupAttachments 864000000 7
        (Except.ok [{ name := "p", mtimeMs := 0 }, { name := "q", mtimeMs := 0 },
                    { name := "r", mtimeMs := 0 }])
        (fun _ => true) (fun n => n != "q")
      = { deleted := ["p"], errorLogged := true } := by
  constructor
  · have h := (cleanupAttachments_error_ends_sweep 864000000 7
      [{ name := "p", mtimeMs := 0 }] [{ name := "r", mtimeMs := 0 }]
      { name := "q", mtimeMs := 0 } (fun n => n != "q") (fun _ => true)
      (by decide)).1 (by decide)
    have hd : (([{ name := "p", mtimeMs := 0 }] : List FileInfo).filter fun g =>
        decide ((864000000 : Int) - g.mtimeMs > 7 * 86400000)).map FileInfo.name
        = ["p"] := by norm_num
    rw [hd] at h
    exact h
  · have h := (cleanupAttachments_error_ends_sweep 864000000 7
      [{ name := "p", mtimeMs := 0 }] [{ name := "r", mtimeMs := 0 }]
      { name := "q", mtimeMs := 0 } (fun _ => true) (fun n => n != "q")
      (by decide)).2 rfl (by decide) (by norm_num)
    have hd : (([{ name := "p", mtimeMs := 0 }] : List FileInfo).filter fun g =>
        decide ((864000000 : Int) - g.mtimeMs > 7 * 86400000)).map FileInfo.name
        = ["p"] := by norm_num
    rw [hd] at h
    exact h

/-- Recognizer for file-upload events in a send trace. -/
def isFileEvent : SendEvent → Bool
  | SendEvent.file _ _ _ _ => true
  | _ => false

/-- File-upload event issued for one saved attachment. -/
def fileEventOf (cfg : Config) (env : TextEnv) (a : SavedAttachment) : SendEvent :=
  SendEvent.file (formatPhoneNumber cfg.targetNumber) a.filepath
    (attachmentCaption env a) a.filename

/-- Trace shape of the attachment loop: it only appends to the incoming
trace, and the file events it appends are the first `k` attachments, in
declaration order, for some `k`. -/
theorem sendAttachmentsLoop_trace (cfg : Config) (env : TextEnv) (ok : ℕ → Bool)
    (atts : List SavedAttachment) (trace : List SendEvent) (n : ℕ) :
    ∃ suffix k,
      (sendAttachmentsLoop cfg env ok atts trace n).1 = trace ++ suffix
      ∧ suffix.filter isFileEvent = (atts.take k).map (fileEventOf cfg env) := by
  induction atts generalizing trace n with
  | nil => exact ⟨[], 0, by simp [sendAttachmentsLoop], by simp⟩
  | cons a rest ih =>
    by_cases h1 : ok n
    · obtain ⟨s, k, hs, hf⟩ := ih
        (trace ++ [fileEventOf cfg env a] ++ [SendEvent.wait 2000]) (n + 1)
      refine ⟨[fileEventOf cfg env a] ++ [SendEvent.wait 2000] ++ s, k + 1, ?_, ?_⟩
      · simpa [sendAttachmentsLoop, h1, fileEventOf] using hs
      · simp [List.filter_append, hf, isFileEvent, fileEventOf]
    · by_cases h2 : ok (n + 1)
      · obtain ⟨s, k, hs, hf⟩ := ih
          (trace ++ [fileEventOf cfg env a]
            ++ [SendEvent.text (formatPhoneNumber cfg.targetNumber)
                ("❌ Failed to send attachment: " ++ a.filename)]) (n + 2)
        refine ⟨[fileEventOf cfg env a]
          ++ [SendEvent.text (formatPhoneNumber cfg.targetNumber)
              ("❌ Failed to send attachment: " ++ a.filename)] ++ s, k + 1, ?_, ?_⟩
        · simpa [sendAttachmentsLoop, h1, h2, fileEventOf] using hs
        · simp [List.filter_append, hf, isFileEvent, fileEventOf]
      · refine ⟨[fileEventOf cfg env a]
          ++ [SendEvent.text (formatPhoneNumber cfg.targetNumber)
              ("❌ Failed to send attachment: " ++ a.filename)], 1, ?_, ?_⟩
        · simp [sendAttachmentsLoop, h1, h2, fileEventOf]
        · simp [isFileEvent, fileEventOf]

/-- C8: within the forward of one message, the trace starts with the rendered
text-body send — so no file send precedes it — and the file sends are an
initial segment of the attachment list of the message in declaration order. -/
theorem forwardEmail_text_before_files (cfg : Config) (env : TextEnv)
    (ok : ℕ → Bool) (emailData : ProcessedData) :
    (forwardEmail cfg env ok emailData).trace.head?
      = some (SendEvent.text (formatPhoneNumber cfg.targetNumber)
          (buildMessage env emailData))
    ∧ ∃ k, (forwardEmail cfg env ok emailData).trace.filter isFileEvent
        = (emailData.attachments.take k).map (fileEventOf cfg env) := by
  by_cases h0 : ok 0
  · rcases hm : sendAttachmentsLoop cfg env ok emailData.attachments
        [SendEvent.text (formatPhoneNumber cfg.targetNumber)
          (buildMessage env emailData)] 1
      with ⟨trace1, n1, completed⟩
    obtain ⟨s, k, hs, hf⟩ := sendAttachmentsLoop_trace cfg env ok
      emailData.attachments
      [SendEvent.text (formatPhoneNumber cfg.targetNumber)
        (buildMessage env emailData)] 1
    rw [hm] at hs
    simp only at hs
    cases completed with
    | false =>
      simp only [forwardEmail, if_pos h0, hm]
      refine ⟨by simp [hs], k, ?_⟩
      simp [hs, hf, isFileEvent]
    | true =>
      by_cases hsk : emailData.skippedAttachments.length > 0
      · by_cases hn1 : ok n1
        · simp only [forwardEmail, if_pos h0, hm]
          refine ⟨by simp [hs, hsk, hn1], k, ?_⟩
          simp [hs, hsk, hn1, hf, isFileEvent, List.filter_append]
        · simp only [forwardEmail, if_pos h0, hm]
          refine ⟨by simp [hs, hsk, hn1], k, ?_⟩
          simp [hs, hsk, hn1, hf, isFileEvent, List.filter_append]
      · simp only [forwardEmail, if_pos h0, hm]
        refine ⟨by simp [hs, hsk], k, ?_⟩
        simp [hs, hsk, hf, isFileEvent]
  · refine ⟨by simp [forwardEmail, h0], 0, ?_⟩
    simp [forwardEmail, h0, isFileEvent]

/-- C7: when the primary text-body send fails, `forwardEmail` rejects
with exactly that one attempted send in its trace — zero file sends even
when attachments exist — and the orchestrator logs the failure and
attempts one error-notification message. -/
theorem forwardEmail_text_failure_propagates (cfg : Config) (env : TextEnv)
    (ok : ℕ → Bool) (errText : String) (emailData : ProcessedData)
    (h0 : ok 0 = false) :
    (forwardEmail cfg env ok emailData).resolved = false
    ∧ (forwardEmail cfg env ok emailData).trace
        = [SendEvent.text (formatPhoneNumber cfg.targetNumber)
            (buildMessage env emailData)]
    ∧ (processEmails cfg env ok errText [emailData] 0).1
        = [AppEvent.send (SendEvent.text (formatPhoneNumber cfg.targetNumber)
              (buildMessage env emailData)),
           AppEvent.logForwardError emailData.subject,
           AppEvent.send (SendEvent.text (formatPhoneNumber cfg.targetNumber)
             ("❌ Failed to forward email:\n*Subject:* " ++ emailData.subject
               ++ "\n*Error:* " ++ errText))] := by
  refine ⟨?_, ?_, ?_⟩
  · simp [forwardEmail, h0]
  · simp [forwardEmail, h0]
  · simp [processEmails, processOneEmail, forwardEmail, h0]

/-- Concrete configuration used by the C7 witness. -/
def fwCfg : Config := { maxAttachmentSizeMB := 25, targetNumber := "081234567890" }

/-- Concrete rendering environment used by the C7 witness. -/
def fwEnv : TextEnv :=
  { toLocaleString := fun _ => "1/1/2024", stripHtml := fun s => s,
    formatImagePlaceholders := fun s => s, formatFileSize := fun _ => "1 KB" }

/-- Concrete message with an attachment, used by the C7 witness. -/
def fwEmail : ProcessedData :=
  { fromAddr := "alice@example.com", toAddr := "bob@example.com",
    subject := "Hi", date := 0, text := "body", html := "",
    attachments := [{ filename := "a.txt", filepath := "attachments/5_a.txt",
                      contentType := "text/plain", size := 3 }],
    skippedAttachments := [] }

/-- Witness for C7: with every send failing, the message that has an
attachment still produces zero file sends, and the orchestrator logs and
attempts a notification. -/
theorem forwardEmail_text_failure_propagates_witness :
    (forwardEmail fwCfg fwEnv (fun _ => false) fwEmail).resolved = false
    ∧ (forwardEmail fwCfg fwEnv (fun _ => false) fwEmail).trace
        = [SendEvent.text (formatPhoneNumber fwCfg.targetNumber)
            (buildMessage fwEnv fwEmail)]
    ∧ (processEmails fwCfg fwEnv (fun _ => false) "boom" [fwEmail] 0).1
        = [AppEvent.send (SendEvent.text (formatPhoneNumber fwCfg.targetNumber)
              (buildMessage fwEnv fwEmail)),
           AppEvent.logForwardError fwEmail.subject,
           AppEvent.send (SendEvent.text (formatPhoneNumber fwCfg.targetNumber)
             ("❌ Failed to forward email:\n*Subject:* " ++ fwEmail.subject
               ++ "\n*Error:* " ++ "boom"))] :=
  forwardEmail_text_failure_propagates fwCfg fwEnv (fun _ => false) "boom" fwEmail
    rfl

end Forwarder
